import Mathlib

/-!
Verification of the grim turn-processing pipeline.

This file gives a shallow embedding of the core of the grim repository
(a Telegram wargame facilitator): the typed player-interaction model
(src/types.ts), the weighted outcome sampler and the `processActions`
pipeline of the OpenAI chat service (src/openai.ts), the generic
`partition` helper (src/utils/array.ts), and the checkpoint / rollback
machinery of the bot layer (src/grim.ts: `generateStateHash`,
`saveState`, and the `/rollback` command handler).

JavaScript numbers are modelled by the type `JsNum`: exact rationals for
the finite values, plus the distinguished `nan`, `inf` and `ninf` values,
with addition, division and comparison following IEEE-754 special-value
rules (floating-point rounding itself is idealised away; none of the
properties proved here depends on rounding).  External model calls are
modelled by oracle parameters: each forecast call is answered by a
`ForecastReply` and the narration call by a `NarrationReply`, and the
`Math.random()` draws by a stream of rationals.
-/

namespace Grim

/-- Player record, from src/types.ts. -/
structure Player where
  id : Int
  name : String
  role : String
deriving DecidableEq, Repr

/-- The interaction kinds, from the `UserInteractionType` enum in src/types.ts. -/
inductive UserInteractionType where
  | INFO
  | FEED
  | ACTION
deriving DecidableEq, Repr

/-- The string value of each enum member (the enum is string-valued in the source). -/
def typeName : UserInteractionType → String
  | UserInteractionType.INFO => "INFO"
  | UserInteractionType.FEED => "FEED"
  | UserInteractionType.ACTION => "ACTION"

/-- A queued player interaction, from src/types.ts. -/
structure UserInteraction where
  type : UserInteractionType
  player : Player
  content : String
deriving DecidableEq, Repr

/-- Message roles used by the chat service (developer, user, assistant). -/
inductive Role where
  | developer
  | user
  | assistant
deriving DecidableEq, Repr

/-- One element of the canonical transcript (a `ChatCompletionMessageParam`
restricted to the role/content fields the pipeline reads and writes). -/
structure ChatMessage where
  role : Role
  content : String
deriving DecidableEq, Repr

/-- A JavaScript number: an exact rational, or one of the IEEE special
values NaN, +Infinity, -Infinity. -/
inductive JsNum where
  | nan
  | inf
  | ninf
  | fin (q : Rat)
deriving DecidableEq, Repr

/-- IEEE addition on `JsNum` (special values only; finite addition is exact). -/
def jsAdd : JsNum → JsNum → JsNum
  | JsNum.nan, _ => JsNum.nan
  | _, JsNum.nan => JsNum.nan
  | JsNum.inf, JsNum.ninf => JsNum.nan
  | JsNum.ninf, JsNum.inf => JsNum.nan
  | JsNum.inf, _ => JsNum.inf
  | _, JsNum.inf => JsNum.inf
  | JsNum.ninf, _ => JsNum.ninf
  | _, JsNum.ninf => JsNum.ninf
  | JsNum.fin a, JsNum.fin b => JsNum.fin (a + b)

/-- IEEE division of one finite value by another: `0/0 = NaN`,
`a/0 = ±Infinity` for nonzero `a`, exact quotient otherwise. -/
def jsDivFin (a b : Rat) : JsNum :=
  if b = 0 then
    if a = 0 then JsNum.nan
    else if 0 < a then JsNum.inf
    else JsNum.ninf
  else JsNum.fin (a / b)

/-- IEEE comparison `r <= x` of a finite `r` against a `JsNum`:
any comparison against NaN is false. -/
def jsLeFin (r : Rat) : JsNum → Bool
  | JsNum.nan => false
  | JsNum.inf => true
  | JsNum.ninf => false
  | JsNum.fin q => decide (r ≤ q)

/-- A weighted outcome candidate, from the `Outcome` interface in src/openai.ts. -/
structure Outcome where
  outcome : String
  weight : Rat
deriving DecidableEq, Repr

/-- The total `outcomes.reduce((sum, o) => sum + o.weight, 0)` from
`sampleFromWeightedOutcomes` in src/openai.ts. -/
def totalWeight (outcomes : List Outcome) : Rat :=
  outcomes.foldl (fun sum o => sum + o.weight) 0

/-- The `for` loop of `sampleFromWeightedOutcomes`: walk the candidates,
adding each normalized weight `o.weight / total` to the running `cumSum`,
and return the first candidate whose cumulative sum reaches `rand`;
`none` means the loop fell through without triggering. -/
def sampleGo (rand : Rat) (total : Rat) : List Outcome → JsNum → Option String
  | [], _ => none
  | o :: rest, cumSum =>
      let c := jsAdd cumSum (jsDivFin o.weight total)
      if jsLeFin rand c then some o.outcome else sampleGo rand total rest c

/-- The function `sampleFromWeightedOutcomes` from src/openai.ts, with the `Math.random()`
draw passed explicitly as `rand`.  The last-candidate fallback after the loop
is `getLast?`; on the empty list the source indexes `outcomes[-1]` and crashes,
which the embedding renders as `none`. -/
def sampleFromWeightedOutcomes (outcomes : List Outcome) (rand : Rat) : Option String :=
  match sampleGo rand (totalWeight outcomes) outcomes (JsNum.fin 0) with
  | some s => some s
  | none => (outcomes.getLast?).map Outcome.outcome

theorem sampleGo_mem (rand total : Rat) :
    ∀ (l : List Outcome) (c : JsNum) (s : String),
      sampleGo rand total l c = some s → ∃ o ∈ l, o.outcome = s := by
  intro l
  induction l with
  | nil => intro c s h; simp [sampleGo] at h
  | cons o rest ih =>
      intro c s h
      simp only [sampleGo] at h
      by_cases hle : jsLeFin rand (jsAdd c (jsDivFin o.weight total)) = true
      · rw [if_pos hle] at h
        exact ⟨o, List.mem_cons_self o rest, (Option.some.injEq _ _).mp h⟩
      · rw [if_neg hle] at h
        obtain ⟨o', ho', hs⟩ := ih _ s h
        exact ⟨o', List.mem_cons_of_mem o ho', hs⟩

theorem sampleGo_nan (rand total : Rat) :
    ∀ (l : List Outcome), sampleGo rand total l JsNum.nan = none := by
  intro l
  induction l with
  | nil => rfl
  | cons o rest ih =>
      simp only [sampleGo, jsAdd, jsLeFin]
      exact ih

/-- If the candidate list is non-empty the sampler always yields a value. -/
theorem sampleFromWeightedOutcomes_isSome (outcomes : List Outcome) (rand : Rat)
    (hne : outcomes ≠ []) : (sampleFromWeightedOutcomes outcomes rand).isSome := by
  unfold sampleFromWeightedOutcomes
  cases hgo : sampleGo rand (totalWeight outcomes) outcomes (JsNum.fin 0) with
  | some s => rfl
  | none =>
      cases hl : outcomes.getLast? with
      | none =>
          have : outcomes.getLast?.isSome := List.getLast?_isSome.mpr hne
          rw [hl] at this
          exact absurd this (by simp)
      | some o => rfl

theorem totalWeight_all_zero_aux (l : List Outcome) :
    ∀ (a : Rat), (∀ o ∈ l, o.weight = 0) → l.foldl (fun sum o => sum + o.weight) a = a := by
  induction l with
  | nil => intro a _; rfl
  | cons o rest ih =>
      intro a hz
      have hw : o.weight = 0 := hz o (List.mem_cons_self o rest)
      simp only [List.foldl_cons, hw, add_zero]
      exact ih a (fun o' ho' => hz o' (List.mem_cons_of_mem o ho'))

theorem totalWeight_all_zero (outcomes : List Outcome)
    (hz : ∀ o ∈ outcomes, o.weight = 0) : totalWeight outcomes = 0 :=
  totalWeight_all_zero_aux outcomes 0 hz

/-- Claim C3: for every non-empty list of weighted outcome candidates and every
random draw `r` in `[0,1)`, `sampleFromWeightedOutcomes` returns the description
of one of the listed candidates — never `none`, never a string outside the
list.  The walk either triggers on a listed candidate, or the fallback returns
the last candidate, also listed. -/
theorem sampleFromWeightedOutcomes_mem (outcomes : List Outcome) (rand : Rat)
    (hne : outcomes ≠ []) (_h0 : 0 ≤ rand) (_h1 : rand < 1) :
    ∃ o ∈ outcomes, sampleFromWeightedOutcomes outcomes rand = some o.outcome := by
  unfold sampleFromWeightedOutcomes
  cases hgo : sampleGo rand (totalWeight outcomes) outcomes (JsNum.fin 0) with
  | some s =>
      obtain ⟨o, ho, hs⟩ := sampleGo_mem rand (totalWeight outcomes) outcomes (JsNum.fin 0) s hgo
      exact ⟨o, ho, by rw [hs]⟩
  | none =>
      refine ⟨outcomes.getLast hne, List.getLast_mem hne, ?_⟩
      rw [List.getLast?_eq_getLast_of_ne_nil hne]
      rfl

/-- Witness for C3 at a concrete input. -/
theorem sampleFromWeightedOutcomes_mem_witness :
    ([Outcome.mk "a" 1] ≠ [] ∧ (0 : Rat) ≤ 0 ∧ (0 : Rat) < 1) ∧
    ∃ o ∈ [Outcome.mk "a" 1], sampleFromWeightedOutcomes [Outcome.mk "a" 1] 0 = some o.outcome :=
  ⟨⟨by decide, by decide, by decide⟩,
   sampleFromWeightedOutcomes_mem [Outcome.mk "a" 1] 0 (by decide) (by decide) (by decide)⟩

/-- Claim C10 counterexample: the weights `[1, -1]` sum to zero, but the
normalized weights are `+Infinity` and `-Infinity`, not NaN: the very first
cumulative comparison succeeds and the sampler returns the FIRST candidate
`"a"`, not the last candidate `"b"` as the claim states. -/
theorem sample_zero_sum_not_last :
    totalWeight [Outcome.mk "a" 1, Outcome.mk "b" (-1)] = 0 ∧
    sampleFromWeightedOutcomes [Outcome.mk "a" 1, Outcome.mk "b" (-1)] (1/2) = some "a" ∧
    ([Outcome.mk "a" 1, Outcome.mk "b" (-1)].getLast?).map Outcome.outcome = some "b" ∧
    ("a" : String) ≠ "b" := by
  refine ⟨?_, ?_, by decide, by decide⟩
  · norm_num [totalWeight]
  · norm_num [sampleFromWeightedOutcomes, sampleGo, totalWeight, jsDivFin, jsAdd, jsLeFin]

/-- Claim C10 (amended): for every non-empty candidate list whose weights are
ALL zero (so the total weight is zero and every normalized weight is NaN, and
no cumulative comparison against the random draw ever succeeds),
`sampleFromWeightedOutcomes` still returns the last candidate's description
rather than failing. -/
theorem sample_all_zero_weights_last (outcomes : List Outcome) (rand : Rat)
    (hne : outcomes ≠ []) (hz : ∀ o ∈ outcomes, o.weight = 0) :
    sampleFromWeightedOutcomes outcomes rand = (outcomes.getLast?).map Outcome.outcome := by
  unfold sampleFromWeightedOutcomes
  have htot : totalWeight outcomes = 0 := totalWeight_all_zero outcomes hz
  have hgo : sampleGo rand (totalWeight outcomes) outcomes (JsNum.fin 0) = none := by
    rw [htot]
    cases outcomes with
    | nil => rfl
    | cons o rest =>
        have hw : o.weight = 0 := hz o (List.mem_cons_self o rest)
        simp only [sampleGo, hw, jsDivFin, if_pos rfl, jsAdd, jsLeFin]
        exact sampleGo_nan rand 0 rest
  rw [hgo]

/-- Witness for the amended C10 at a concrete input. -/
theorem sample_all_zero_weights_last_witness :
    ([Outcome.mk "a" 0, Outcome.mk "b" 0] ≠ [] ∧
      (∀ o ∈ [Outcome.mk "a" 0, Outcome.mk "b" 0], o.weight = 0)) ∧
    sampleFromWeightedOutcomes [Outcome.mk "a" 0, Outcome.mk "b" 0] (1/2) =
      ([Outcome.mk "a" 0, Outcome.mk "b" 0].getLast?).map Outcome.outcome :=
  ⟨⟨by decide, by decide⟩,
   sample_all_zero_weights_last [Outcome.mk "a" 0, Outcome.mk "b" 0] (1/2)
     (by decide) (by decide)⟩

/-- The generic `partition` helper from src/utils/array.ts: a `reduce` that
pushes each item onto the matches or the non-matches accumulator. -/
def partition {α : Type} (array : List α) (predicate : α → Bool) : List α × List α :=
  array.foldl
    (fun acc item =>
      if predicate item then (acc.1 ++ [item], acc.2) else (acc.1, acc.2 ++ [item]))
    ([], [])

theorem partition_foldl_eq (p : α → Bool) (l : List α) :
    ∀ (acc : List α × List α),
      l.foldl
        (fun acc item =>
          if p item then (acc.1 ++ [item], acc.2) else (acc.1, acc.2 ++ [item]))
        acc
      = (acc.1 ++ l.filter p, acc.2 ++ l.filter (fun x => !p x)) := by
  induction l with
  | nil => intro acc; simp
  | cons x rest ih =>
      intro acc
      by_cases hx : p x = true
      · simp only [List.foldl_cons, if_pos hx, ih, List.filter_cons, hx, Bool.not_true,
          if_true]
        simp [List.append_assoc]
      · have hx' : p x = false := Bool.eq_false_iff.mpr hx
        simp only [List.foldl_cons, if_neg hx, ih, List.filter_cons, hx', Bool.not_false,
          if_false]
        simp [List.append_assoc]

/-- The `partition` of the source equals the pair of `filter`s. -/
theorem partition_eq_filter (p : α → Bool) (l : List α) :
    Grim.partition l p = (l.filter p, l.filter (fun x => !p x)) := by
  unfold Grim.partition
  rw [partition_foldl_eq p l ([], [])]
  simp

/-- The predicate used at the `partition` call site of `processActions`
(src/openai.ts line 226): `action.type === UserInteractionType.FEED`. -/
def isFeed (a : UserInteraction) : Bool :=
  decide (a.type = UserInteractionType.FEED)

/-- Claim C4: partitioning the queue by kind FEED is a total, order-preserving
split: the concatenation of the world-truth partition and the forecastable
partition is a permutation of the queue (so no interaction is duplicated or
dropped), each partition is a sublist of the queue (relative order preserved),
the world-truth partition holds exactly the FEED interactions and the
forecastable partition exactly the INFO and ACTION interactions. -/
theorem partition_feed_total_ordered_split (queue : List UserInteraction) :
    List.Perm ((Grim.partition queue isFeed).1 ++ (Grim.partition queue isFeed).2) queue ∧
    List.Sublist (Grim.partition queue isFeed).1 queue ∧
    List.Sublist (Grim.partition queue isFeed).2 queue ∧
    (∀ a ∈ queue, a.type = UserInteractionType.FEED → a ∈ (Grim.partition queue isFeed).1) ∧
    (∀ a ∈ (Grim.partition queue isFeed).1, a.type = UserInteractionType.FEED) ∧
    (∀ a ∈ queue, a.type ≠ UserInteractionType.FEED → a ∈ (Grim.partition queue isFeed).2) ∧
    (∀ a ∈ (Grim.partition queue isFeed).2,
        a.type = UserInteractionType.INFO ∨ a.type = UserInteractionType.ACTION) := by
  rw [partition_eq_filter]
  refine ⟨List.filter_append_perm isFeed queue, List.filter_sublist queue,
    List.filter_sublist queue, ?_, ?_, ?_, ?_⟩
  · intro a ha hfeed
    exact List.mem_filter.mpr ⟨ha, by simp [isFeed, hfeed]⟩
  · intro a ha
    have := (List.mem_filter.mp ha).2
    simpa [isFeed] using this
  · intro a ha hnf
    exact List.mem_filter.mpr ⟨ha, by simp [isFeed, hnf]⟩
  · intro a ha
    have h2 := (List.mem_filter.mp ha).2
    have hnf : a.type ≠ UserInteractionType.FEED := by
      intro h
      simp [isFeed, h] at h2
    cases htyp : a.type with
    | INFO => exact Or.inl rfl
    | FEED => exact absurd htyp hnf
    | ACTION => exact Or.inr rfl

/-- The line `${action.type} ${action.player.name}: ${action.content}` used
both for the concurrent-context rendering and for the outcome blocks. -/
def interactionLine (a : UserInteraction) : String :=
  typeName a.type ++ " " ++ a.player.name ++ ": " ++ a.content

/-- The FEED rendering `${feed.type}: ${feed.content}` of src/openai.ts line 276. -/
def feedMessage (feed : UserInteraction) : String :=
  typeName feed.type ++ ": " ++ feed.content

/-- The reply the backend gives to one forecast request, as observed by
`processActions`: the call can throw (network or auth failure — an
unparseable tool-call argument string, whose `JSON.parse` throw rejects the
same promise, is subsumed here), or resolve with a message that lacks the
required tool call, or resolve with a tool call carrying a parsed list of
weighted outcomes. -/
inductive ForecastReply where
  | backendThrow
  | noToolCall
  | toolCall (outcomes : List Outcome)
deriving Repr

/-- The reply the backend gives to the narration request: the call can throw,
or resolve with the (possibly empty) message content. -/
inductive NarrationReply where
  | backendThrow
  | reply (content : String)
deriving DecidableEq, Repr

/-- The body of one promise of the `nonFeeds.map(async …)` fan-out in
`processActions` (src/openai.ts lines 228–271): a throwing backend call
rejects the promise (`error`); a reply without `tool_calls[0]` is logged and
returns `null` (`ok none`); otherwise the parsed outcomes are sampled and the
original interaction line plus chosen outcome line is returned.  A `toolCall`
whose outcome list is empty also rejects: `sampleFromWeightedOutcomes` reads
`outcomes[-1].outcome` and throws. -/
def forecastStep (a : UserInteraction) (fr : ForecastReply) (rand : Rat) :
    Except Unit (Option String) :=
  match fr with
  | ForecastReply.backendThrow => Except.error ()
  | ForecastReply.noToolCall => Except.ok none
  | ForecastReply.toolCall outcomes =>
      match sampleFromWeightedOutcomes outcomes rand with
      | none => Except.error ()
      | some outcome => Except.ok (some (interactionLine a ++ "\nOutcome: " ++ outcome))

/-- The `Promise.all` join over the forecast promises, with the i-th non-FEED
interaction answered by `replies i` and drawing `rands i`: the join rejects
as soon as any promise rejects, otherwise yields the list of settled values
(`null` for absorbed forecasts). -/
def forecastResultsGo (replies : Nat → ForecastReply) (rands : Nat → Rat) :
    List UserInteraction → Nat → Except Unit (List (Option String))
  | [], _ => Except.ok []
  | a :: rest, i =>
      match forecastStep a (replies i) (rands i), forecastResultsGo replies rands rest (i + 1) with
      | Except.error _, _ => Except.error ()
      | Except.ok _, Except.error _ => Except.error ()
      | Except.ok o, Except.ok os => Except.ok (o :: os)

def forecastResults (nonFeeds : List UserInteraction)
    (replies : Nat → ForecastReply) (rands : Nat → Rat) :
    Except Unit (List (Option String)) :=
  forecastResultsGo replies rands nonFeeds 0

/-- The outcome of one `processActions` turn, together with how many forecast
requests and narration requests were issued to the backend. -/
structure ProcessResult where
  result : Except Unit (List ChatMessage)
  forecastCalls : Nat
  narrationCalls : Nat
deriving Repr

/-- The pipeline `ChatService.processActions` from src/openai.ts (lines 153–338), with the
backend modelled by the reply oracles.  The queue is partitioned on
`type === FEED`; one forecast promise is dispatched per non-FEED interaction
and joined with `Promise.all` (all of them are dispatched before the join, so
`forecastCalls` counts every non-FEED interaction); a rejected join is caught
and re-thrown (`result = error`).  Otherwise the `null` entries are filtered
out, the combined outcome block is the FEED renderings followed by the
outcome blocks joined with blank lines, the narration request is issued, a
thrown narration call is re-thrown, and an empty narration content is
replaced by the literal `"Failed to generate narrative"` before the two new
messages are appended to the history. -/
def processActions (canonicalScenarioMessages : List ChatMessage)
    (actions : List UserInteraction)
    (forecastReplies : Nat → ForecastReply) (rands : Nat → Rat)
    (narrationReply : NarrationReply) : ProcessResult :=
  let parts := Grim.partition actions isFeed
  let feeds := parts.1
  let nonFeeds := parts.2
  match forecastResults nonFeeds forecastReplies rands with
  | Except.error _ =>
      { result := Except.error (), forecastCalls := nonFeeds.length, narrationCalls := 0 }
  | Except.ok settled =>
      let outcomes := settled.filterMap id
      let feedMessages := feeds.map feedMessage
      let allOutcomesStr := String.intercalate "\n\n" (feedMessages ++ outcomes)
      match narrationReply with
      | NarrationReply.backendThrow =>
          { result := Except.error (), forecastCalls := nonFeeds.length, narrationCalls := 1 }
      | NarrationReply.reply content =>
          let narratorResponse := if content = "" then "Failed to generate narrative" else content
          { result := Except.ok (canonicalScenarioMessages ++
              [ { role := Role.user, content := allOutcomesStr },
                { role := Role.assistant, content := narratorResponse } ]),
            forecastCalls := nonFeeds.length,
            narrationCalls := 1 }

/-- The benign forecast-oracle condition: no forecast backend call throws,
and every tool call carries a non-empty outcome list (so sampling succeeds);
a forecast may still fail by lacking the required tool call. -/
def absorbableReplies (replies : Nat → ForecastReply) : Prop :=
  ∀ i, replies i = ForecastReply.noToolCall ∨
    ∃ os, replies i = ForecastReply.toolCall os ∧ os ≠ []

theorem forecastStep_ok_some (a : UserInteraction) (fr : ForecastReply) (rand : Rat)
    (v : String) (h : forecastStep a fr rand = Except.ok (some v)) :
    ∃ out, v = interactionLine a ++ "\nOutcome: " ++ out := by
  cases fr with
  | backendThrow => exact absurd h (by simp [forecastStep])
  | noToolCall => exact absurd h (by simp [forecastStep])
  | toolCall os =>
      simp only [forecastStep] at h
      cases hs : sampleFromWeightedOutcomes os rand with
      | none => rw [hs] at h; exact absurd h (by simp)
      | some out =>
          rw [hs] at h
          simp only [Except.ok.injEq, Option.some.injEq] at h
          exact ⟨out, h.symm⟩

theorem forecastResultsGo_ok (replies : Nat → ForecastReply) (rands : Nat → Rat)
    (habsorb : absorbableReplies replies) :
    ∀ (l : List UserInteraction) (i : Nat),
      ∃ res, forecastResultsGo replies rands l i = Except.ok res := by
  intro l
  induction l with
  | nil => intro i; exact ⟨[], rfl⟩
  | cons a rest ih =>
      intro i
      obtain ⟨res, hres⟩ := ih (i + 1)
      have hstep : ∃ o, forecastStep a (replies i) (rands i) = Except.ok o := by
        rcases habsorb i with h | ⟨os, heq, hne⟩
        · rw [h]; exact ⟨none, rfl⟩
        · rw [heq]
          simp only [forecastStep]
          cases hs : sampleFromWeightedOutcomes os (rands i) with
          | none =>
              have hsome := sampleFromWeightedOutcomes_isSome os (rands i) hne
              rw [hs] at hsome
              exact absurd hsome (by simp)
          | some out =>
              exact ⟨some (interactionLine a ++ "\nOutcome: " ++ out), rfl⟩
      obtain ⟨o, ho⟩ := hstep
      refine ⟨o :: res, ?_⟩
      simp only [forecastResultsGo]
      rw [ho, hres]

theorem forecastResultsGo_shape (replies : Nat → ForecastReply) (rands : Nat → Rat) :
    ∀ (l : List UserInteraction) (i : Nat) (res : List (Option String)),
      forecastResultsGo replies rands l i = Except.ok res →
      ∀ s ∈ res.filterMap id, ∃ a, a ∈ l ∧
        ∃ out, s = interactionLine a ++ "\nOutcome: " ++ out := by
  intro l
  induction l with
  | nil =>
      intro i res h s hs
      simp only [forecastResultsGo] at h
      have : res = [] := ((Except.ok.injEq _ _).mp h).symm
      subst this
      simp at hs
  | cons a rest ih =>
      intro i res h s hs
      simp only [forecastResultsGo] at h
      cases hstep : forecastStep a (replies i) (rands i) with
      | error e => rw [hstep] at h; exact absurd h (by simp)
      | ok o =>
          cases hrest : forecastResultsGo replies rands rest (i + 1) with
          | error e => rw [hstep, hrest] at h; exact absurd h (by simp)
          | ok os =>
              rw [hstep, hrest] at h
              simp only [Except.ok.injEq] at h
              subst h
              cases o with
              | none =>
                  simp only [List.filterMap_cons, id] at hs
                  obtain ⟨a', ha', hout⟩ := ih (i + 1) os hrest s hs
                  exact ⟨a', List.mem_cons_of_mem a ha', hout⟩
              | some v =>
                  simp only [List.filterMap_cons, id] at hs
                  rcases List.mem_cons.mp hs with hv | hmem
                  · subst hv
                    obtain ⟨out, hout⟩ := forecastStep_ok_some a (replies i) (rands i) _ hstep
                    exact ⟨a, List.mem_cons_self a rest, out, hout⟩
                  · obtain ⟨a', ha', hout⟩ := ih (i + 1) os hrest s hmem
                    exact ⟨a', List.mem_cons_of_mem a ha', hout⟩

/-- Claim C1 counterexample: one ACTION interaction whose forecast backend
call throws makes the whole `processActions` turn fail — the rejection of the
forecast promise propagates through `Promise.all` to the outer catch, which
re-throws; the narration call is never even issued, so the failure is not a
narration failure.  The claimed absorption covers only the missing-tool-call
case, not the throwing backend call. -/
theorem processActions_forecast_throw_aborts_batch :
    (processActions []
        [UserInteraction.mk UserInteractionType.ACTION (Player.mk 1 "Alice" "Responder") "recon"]
        (fun _ => ForecastReply.backendThrow) (fun _ => 0)
        (NarrationReply.reply "update")).result = Except.error () ∧
    (processActions []
        [UserInteraction.mk UserInteractionType.ACTION (Player.mk 1 "Alice" "Responder") "recon"]
        (fun _ => ForecastReply.backendThrow) (fun _ => 0)
        (NarrationReply.reply "update")).narrationCalls = 0 :=
  ⟨rfl, rfl⟩

/-- Claim C1 (amended): provided no individual forecast backend call throws
and every returned tool call carries a non-empty outcome list, `processActions`
fails exactly when the narration call fails: a forecast whose reply lacks the
required tool call is absorbed (dropped from the outcome set) and the batch
still completes with a narration turn.  (A throwing forecast backend call, by
contrast, rejects the whole batch — see the counterexample.) -/
theorem processActions_fails_iff_narration_fails
    (history : List ChatMessage) (actions : List UserInteraction)
    (forecastReplies : Nat → ForecastReply) (rands : Nat → Rat)
    (narrationReply : NarrationReply)
    (habsorb : absorbableReplies forecastReplies) :
    ((processActions history actions forecastReplies rands narrationReply).result
        = Except.error ()
      ↔ narrationReply = NarrationReply.backendThrow) := by
  obtain ⟨res, hres⟩ := forecastResultsGo_ok forecastReplies rands habsorb
    (Grim.partition actions isFeed).2 0
  simp only [processActions, forecastResults]
  rw [hres]
  cases narrationReply with
  | backendThrow => simp
  | reply content => simp

/-- Witness for the amended C1 at a concrete input. -/
theorem processActions_fails_iff_narration_fails_witness :
    absorbableReplies (fun _ => ForecastReply.noToolCall) ∧
    ((processActions []
        [UserInteraction.mk UserInteractionType.ACTION (Player.mk 1 "Alice" "Responder") "recon"]
        (fun _ => ForecastReply.noToolCall) (fun _ => 0)
        (NarrationReply.reply "update")).result = Except.error ()
      ↔ NarrationReply.reply "update" = NarrationReply.backendThrow) :=
  ⟨fun _ => Or.inl rfl,
   processActions_fails_iff_narration_fails []
     [UserInteraction.mk UserInteractionType.ACTION (Player.mk 1 "Alice" "Responder") "recon"]
     (fun _ => ForecastReply.noToolCall) (fun _ => 0) (NarrationReply.reply "update")
     (fun _ => Or.inl rfl)⟩

/-- Claim C2 counterexample: when the narration model resolves with EMPTY
content, `processActions` does not surface a failure: the `||` fallback
fabricates the literal narrative "Failed to generate narrative" and a fully
extended two-message history is returned to the caller. -/
theorem processActions_empty_narration_fallback :
    (processActions []
        [UserInteraction.mk UserInteractionType.FEED (Player.mk 2 "Bob" "Analyst") "it rains"]
        (fun _ => ForecastReply.noToolCall) (fun _ => 0)
        (NarrationReply.reply "")).result
      = Except.ok [ ChatMessage.mk Role.user "FEED: it rains",
                    ChatMessage.mk Role.assistant "Failed to generate narrative" ] := by
  rfl

/-- Claim C2 (amended): when the narration backend call THROWS, `processActions`
surfaces a terminal failure for the whole turn and returns no partial history;
but when the narration call succeeds with EMPTY content, the turn does not
fail — the placeholder "Failed to generate narrative" is substituted and a
normally extended two-message history is returned. -/
theorem processActions_narration_error_terminal
    (history : List ChatMessage) (actions : List UserInteraction)
    (forecastReplies : Nat → ForecastReply) (rands : Nat → Rat)
    (habsorb : absorbableReplies forecastReplies) :
    (processActions history actions forecastReplies rands
        NarrationReply.backendThrow).result = Except.error () ∧
    ∃ block, (processActions history actions forecastReplies rands
        (NarrationReply.reply "")).result
      = Except.ok (history ++
          [ ChatMessage.mk Role.user block,
            ChatMessage.mk Role.assistant "Failed to generate narrative" ]) := by
  obtain ⟨res, hres⟩ := forecastResultsGo_ok forecastReplies rands habsorb
    (Grim.partition actions isFeed).2 0
  constructor
  · simp only [processActions, forecastResults]
    rw [hres]
  · refine ⟨String.intercalate "\n\n"
      (((Grim.partition actions isFeed).1).map feedMessage ++ res.filterMap id), ?_⟩
    simp only [processActions, forecastResults]
    rw [hres]
    simp

/-- Witness for the amended C2 at a concrete input. -/
theorem processActions_narration_error_terminal_witness :
    absorbableReplies (fun _ => ForecastReply.noToolCall) ∧
    ((processActions []
        [UserInteraction.mk UserInteractionType.FEED (Player.mk 2 "Bob" "Analyst") "it rains"]
        (fun _ => ForecastReply.noToolCall) (fun _ => 0)
        NarrationReply.backendThrow).result = Except.error () ∧
     ∃ block, (processActions []
        [UserInteraction.mk UserInteractionType.FEED (Player.mk 2 "Bob" "Analyst") "it rains"]
        (fun _ => ForecastReply.noToolCall) (fun _ => 0)
        (NarrationReply.reply "")).result
      = Except.ok ([] ++
          [ ChatMessage.mk Role.user block,
            ChatMessage.mk Role.assistant "Failed to generate narrative" ])) :=
  ⟨fun _ => Or.inl rfl,
   processActions_narration_error_terminal []
     [UserInteraction.mk UserInteractionType.FEED (Player.mk 2 "Bob" "Analyst") "it rains"]
     (fun _ => ForecastReply.noToolCall) (fun _ => 0) (fun _ => Or.inl rfl)⟩

/-- Claim C5: on success, `processActions` returns exactly the input history
extended by two messages, in order: a `user` message holding the combined
outcome block — the FEED renderings (kind-prefixed contents) first, then the
resolved outcome blocks (original interaction line plus chosen outcome line),
joined with blank-line separation — and an `assistant` message holding the
narration reply; the input prefix is unchanged. -/
theorem processActions_success_appends_two_messages
    (history : List ChatMessage) (actions : List UserInteraction)
    (forecastReplies : Nat → ForecastReply) (rands : Nat → Rat) (content : String)
    (habsorb : absorbableReplies forecastReplies) (hcontent : content ≠ "") :
    ∃ blocks : List String,
      (∀ b ∈ blocks, ∃ a, a ∈ actions ∧ a.type ≠ UserInteractionType.FEED ∧
          ∃ out, b = interactionLine a ++ "\nOutcome: " ++ out) ∧
      (processActions history actions forecastReplies rands
          (NarrationReply.reply content)).result
        = Except.ok (history ++
            [ ChatMessage.mk Role.user (String.intercalate "\n\n"
                ((actions.filter isFeed).map feedMessage ++ blocks)),
              ChatMessage.mk Role.assistant content ]) := by
  obtain ⟨res, hres⟩ := forecastResultsGo_ok forecastReplies rands habsorb
    (Grim.partition actions isFeed).2 0
  have hfst : (Grim.partition actions isFeed).1 = actions.filter isFeed := by
    rw [partition_eq_filter]
  refine ⟨res.filterMap id, ?_, ?_⟩
  · intro b hb
    obtain ⟨a, ha, out, hout⟩ := forecastResultsGo_shape forecastReplies rands
      (Grim.partition actions isFeed).2 0 res hres b hb
    rw [partition_eq_filter] at ha
    have hmem := List.mem_filter.mp ha
    refine ⟨a, hmem.1, ?_, out, hout⟩
    intro hfd
    have h2 := hmem.2
    simp [isFeed, hfd] at h2
  · simp only [processActions, forecastResults]
    rw [hres, hfst, if_neg hcontent]

/-- Witness for C5 at a concrete input. -/
theorem processActions_success_appends_two_messages_witness :
    (absorbableReplies (fun _ => ForecastReply.toolCall [Outcome.mk "success" 1]) ∧
      ("next" : String) ≠ "") ∧
    ∃ blocks : List String,
      (∀ b ∈ blocks, ∃ a, a ∈
            [UserInteraction.mk UserInteractionType.FEED (Player.mk 2 "Bob" "Analyst") "it rains",
             UserInteraction.mk UserInteractionType.ACTION (Player.mk 1 "Alice" "Responder") "recon"]
          ∧ a.type ≠ UserInteractionType.FEED ∧
          ∃ out, b = interactionLine a ++ "\nOutcome: " ++ out) ∧
      (processActions [ChatMessage.mk Role.user "seed"]
          [UserInteraction.mk UserInteractionType.FEED (Player.mk 2 "Bob" "Analyst") "it rains",
           UserInteraction.mk UserInteractionType.ACTION (Player.mk 1 "Alice" "Responder") "recon"]
          (fun _ => ForecastReply.toolCall [Outcome.mk "success" 1]) (fun _ => 0)
          (NarrationReply.reply "next")).result
        = Except.ok ([ChatMessage.mk Role.user "seed"] ++
            [ ChatMessage.mk Role.user (String.intercalate "\n\n"
                (([UserInteraction.mk UserInteractionType.FEED (Player.mk 2 "Bob" "Analyst") "it rains",
                   UserInteraction.mk UserInteractionType.ACTION (Player.mk 1 "Alice" "Responder") "recon"].filter
                    isFeed).map feedMessage ++ blocks)),
              ChatMessage.mk Role.assistant "next" ]) :=
  ⟨⟨fun _ => Or.inr ⟨[Outcome.mk "success" 1], rfl, by decide⟩, by decide⟩,
   processActions_success_appends_two_messages [ChatMessage.mk Role.user "seed"]
     [UserInteraction.mk UserInteractionType.FEED (Player.mk 2 "Bob" "Analyst") "it rains",
      UserInteraction.mk UserInteractionType.ACTION (Player.mk 1 "Alice" "Responder") "recon"]
     (fun _ => ForecastReply.toolCall [Outcome.mk "success" 1]) (fun _ => 0) "next"
     (fun _ => Or.inr ⟨[Outcome.mk "success" 1], rfl, by decide⟩) (by decide)⟩

/-- Claim C9: for a batch in which every queued interaction is FEED,
`processActions` issues no forecast call at all, issues exactly one narration
call, and produces exactly one new narration turn: the returned history is the
input extended by one user message and one assistant message. -/
theorem processActions_all_feed_one_narration
    (history : List ChatMessage) (actions : List UserInteraction)
    (forecastReplies : Nat → ForecastReply) (rands : Nat → Rat) (content : String)
    (hfeed : ∀ a ∈ actions, a.type = UserInteractionType.FEED) :
    (processActions history actions forecastReplies rands
        (NarrationReply.reply content)).forecastCalls = 0 ∧
    (processActions history actions forecastReplies rands
        (NarrationReply.reply content)).narrationCalls = 1 ∧
    ∃ u v : ChatMessage, (processActions history actions forecastReplies rands
        (NarrationReply.reply content)).result = Except.ok (history ++ [u, v]) ∧
      u.role = Role.user ∧ v.role = Role.assistant := by
  have hnil : (Grim.partition actions isFeed).2 = [] := by
    rw [partition_eq_filter]
    show actions.filter (fun x => !isFeed x) = []
    rw [List.filter_eq_nil_iff]
    intro a ha
    simp [isFeed, hfeed a ha]
  simp only [processActions, forecastResults]
  rw [hnil]
  exact ⟨rfl, rfl, ⟨_, _, rfl, rfl, rfl⟩⟩

/-- Witness for C9 at a concrete input. -/
theorem processActions_all_feed_one_narration_witness :
    (∀ a ∈ [UserInteraction.mk UserInteractionType.FEED (Player.mk 2 "Bob" "Analyst") "it rains"],
        a.type = UserInteractionType.FEED) ∧
    ((processActions []
        [UserInteraction.mk UserInteractionType.FEED (Player.mk 2 "Bob" "Analyst") "it rains"]
        (fun _ => ForecastReply.backendThrow) (fun _ => 0)
        (NarrationReply.reply "story")).forecastCalls = 0 ∧
     (processActions []
        [UserInteraction.mk UserInteractionType.FEED (Player.mk 2 "Bob" "Analyst") "it rains"]
        (fun _ => ForecastReply.backendThrow) (fun _ => 0)
        (NarrationReply.reply "story")).narrationCalls = 1 ∧
     ∃ u v : ChatMessage, (processActions []
        [UserInteraction.mk UserInteractionType.FEED (Player.mk 2 "Bob" "Analyst") "it rains"]
        (fun _ => ForecastReply.backendThrow) (fun _ => 0)
        (NarrationReply.reply "story")).result = Except.ok ([] ++ [u, v]) ∧
      u.role = Role.user ∧ v.role = Role.assistant) :=
  ⟨by decide,
   processActions_all_feed_one_narration []
     [UserInteraction.mk UserInteractionType.FEED (Player.mk 2 "Bob" "Analyst") "it rains"]
     (fun _ => ForecastReply.backendThrow) (fun _ => 0) "story" (by decide)⟩

/-- The scenario state of src/grim.ts: the active flag and the canonical
message log. -/
structure ScenarioState where
  isActive : Bool
  messages : List ChatMessage
deriving DecidableEq, Repr

/-- The slice of the bot session relevant to checkpointing: the live scenario
state and the checkpoint store.  The store models a JavaScript
`Map<string, ScenarioState>` as an insertion-ordered association list. -/
structure SessionData where
  scenarioState : ScenarioState
  scenarioCheckpoints : List (String × ScenarioState)
deriving DecidableEq, Repr

/-- JavaScript `Map.prototype.set`: replace the value in place when the key is present,
append a new entry otherwise. -/
def mapSet (m : List (String × ScenarioState)) (key : String) (value : ScenarioState) :
    List (String × ScenarioState) :=
  if m.any (fun kv => kv.1 == key) then
    m.map (fun kv => if kv.1 == key then (key, value) else kv)
  else m ++ [(key, value)]

/-- JavaScript `Map.prototype.get`: the value of the (unique) entry with the key, if any. -/
def mapGet (m : List (String × ScenarioState)) (key : String) : Option ScenarioState :=
  (m.find? (fun kv => kv.1 == key)).map Prod.snd

/-- Minimal JSON string escaping (backslash and double quote), enough for
`JSON.stringify` on the fields serialized here. -/
def escapeJsonChar (c : Char) : String :=
  if c = '\\' then "\\\\" else if c = '\"' then "\\\"" else String.singleton c

def escapeJsonString (s : String) : String :=
  String.join (s.toList.map escapeJsonChar)

def jsonStr (s : String) : String :=
  "\"" ++ escapeJsonString s ++ "\""

def roleName : Role → String
  | Role.developer => "developer"
  | Role.user => "user"
  | Role.assistant => "assistant"

def serializeMessage (m : ChatMessage) : String :=
  "\x7b\"role\":" ++ jsonStr (roleName m.role) ++ ",\"content\":" ++ jsonStr m.content ++ "\x7d"

/-- The serialization `JSON.stringify(state)` of a `ScenarioState`: a deterministic, pure
function of the state content. -/
def serializeState (s : ScenarioState) : String :=
  "\x7b\"isActive\":" ++ (if s.isActive then "true" else "false") ++
    ",\"messages\":[" ++ String.intercalate "," (s.messages.map serializeMessage) ++ "]\x7d"

/-- The helper `generateStateHash` from src/grim.ts: hash the serialized state and keep
the first 8 hex characters.  The SHA-256 primitive lives in node's crypto
library (an external collaborator), so it is passed in as the function
`hashHex`; everything proved below holds for every such function. -/
def generateStateHash (hashHex : String → String) (state : ScenarioState) : String :=
  (hashHex (serializeState state)).take 8

/-- The deep copy `JSON.parse(JSON.stringify(x))` on a plain record of booleans, strings and
arrays is the identity at the value level; the embedding models the deep copy
as such (the aliasing it prevents in JavaScript has no counterpart on pure
values). -/
def deepCopy (s : ScenarioState) : ScenarioState := s

/-- The helper `saveState` from src/grim.ts: key the deep-copied live state by its
content hash in the checkpoint store and return the key. -/
def saveState (hashHex : String → String) (session : SessionData) : String × SessionData :=
  let hash := generateStateHash hashHex session.scenarioState
  (hash,
   { session with
       scenarioCheckpoints :=
         mapSet session.scenarioCheckpoints hash (deepCopy session.scenarioState) })

/-- The observable outcome of the `/rollback` command handler. -/
inductive RollbackOutcome where
  | notFound
  | rolledBack (state : ScenarioState)
deriving DecidableEq, Repr

/-- The `/rollback` command handler from src/grim.ts (lines 411–429): look the
key up in the checkpoint store; when absent, report failure and leave the
session untouched; when present, replace the live state by a deep copy of the
stored state. -/
def rollbackCommand (session : SessionData) (hash : String) :
    RollbackOutcome × SessionData :=
  match mapGet session.scenarioCheckpoints hash with
  | none => (RollbackOutcome.notFound, session)
  | some state =>
      (RollbackOutcome.rolledBack state,
       { session with scenarioState := deepCopy state })

theorem mapSet_any_key (m : List (String × ScenarioState)) (key : String)
    (value : ScenarioState) :
    (mapSet m key value).any (fun kv => kv.1 == key) = true := by
  unfold mapSet
  by_cases h : m.any (fun kv => kv.1 == key) = true
  · rw [if_pos h]
    obtain ⟨kv, hkv, hp⟩ := List.any_eq_true.mp h
    refine List.any_eq_true.mpr ⟨(key, value), ?_, by simp⟩
    refine List.mem_map.mpr ⟨kv, hkv, ?_⟩
    rw [if_pos hp]
  · rw [if_neg h]
    refine List.any_eq_true.mpr ⟨(key, value), ?_, by simp⟩
    exact List.mem_append_right m (List.mem_singleton.mpr rfl)

theorem mapSet_length_of_present (m : List (String × ScenarioState)) (key : String)
    (value : ScenarioState) (h : m.any (fun kv => kv.1 == key) = true) :
    (mapSet m key value).length = m.length := by
  unfold mapSet
  rw [if_pos h]
  exact List.length_map m _

theorem mapGet_append_single (m : List (String × ScenarioState)) (key : String)
    (value : ScenarioState) (h : m.any (fun kv => kv.1 == key) = false) :
    mapGet (m ++ [(key, value)]) key = some value := by
  induction m with
  | nil => simp [mapGet, List.find?]
  | cons kv rest ih =>
      simp only [List.any_cons, Bool.or_eq_false_iff] at h
      simp only [List.cons_append, mapGet, List.find?]
      rw [h.1]
      exact ih h.2

theorem mapGet_map_overwrite (m : List (String × ScenarioState)) (key : String)
    (value : ScenarioState) (h : m.any (fun kv => kv.1 == key) = true) :
    mapGet (m.map (fun kv => if kv.1 == key then (key, value) else kv)) key = some value := by
  induction m with
  | nil => simp at h
  | cons kv rest ih =>
      simp only [List.any_cons, Bool.or_eq_true] at h
      by_cases hk : (kv.1 == key) = true
      · simp only [List.map_cons, if_pos hk, mapGet, List.find?, beq_self_eq_true]
        rfl
      · have hrest : rest.any (fun kv => kv.1 == key) = true := by
          rcases h with h | h
          · exact absurd h hk
          · exact h
        simp only [List.map_cons, if_neg hk, mapGet, List.find?]
        rw [Bool.eq_false_iff.mpr hk]
        exact ih hrest

theorem mapGet_mapSet_self (m : List (String × ScenarioState)) (key : String)
    (value : ScenarioState) : mapGet (mapSet m key value) key = some value := by
  unfold mapSet
  by_cases h : m.any (fun kv => kv.1 == key) = true
  · rw [if_pos h]
    exact mapGet_map_overwrite m key value h
  · rw [if_neg h]
    exact mapGet_append_single m key value (Bool.eq_false_iff.mpr h)

/-- Claim C6: checkpointing is idempotent — for every scenario session and
every hash primitive, calling `saveState` twice on an unchanged state yields
the same key both times (the key is a pure function of the serialized state
content), and the checkpoint store does not grow on the second call. -/
theorem checkpoint_idempotent (hashHex : String → String) (session : SessionData) :
    (saveState hashHex (saveState hashHex session).2).1 = (saveState hashHex session).1 ∧
    ((saveState hashHex (saveState hashHex session).2).2).scenarioCheckpoints.length
      = ((saveState hashHex session).2).scenarioCheckpoints.length := by
  constructor
  · rfl
  · simp only [saveState, deepCopy]
    exact mapSet_length_of_present _ _ _
      (mapSet_any_key session.scenarioCheckpoints
        (generateStateHash hashHex session.scenarioState) session.scenarioState)

/-- Claim C7: rollback round-trips with checkpoint — for every session and
every hash primitive, rolling back to the key returned by `saveState` succeeds
and restores a state deep-equal to the checkpointed one, and afterwards
replacing the live state by ANY other state leaves the stored checkpointed
copy untouched (the restore is a value copy, never an alias of the store). -/
theorem rollback_roundtrip_deep_copy (hashHex : String → String) (session : SessionData)
    (mutated : ScenarioState) :
    (rollbackCommand (saveState hashHex session).2 (saveState hashHex session).1).1
      = RollbackOutcome.rolledBack session.scenarioState ∧
    ((rollbackCommand (saveState hashHex session).2 (saveState hashHex session).1).2).scenarioState
      = session.scenarioState ∧
    mapGet ({ (rollbackCommand (saveState hashHex session).2
          (saveState hashHex session).1).2 with scenarioState := mutated }).scenarioCheckpoints
        (saveState hashHex session).1
      = some session.scenarioState := by
  have hget : mapGet ((saveState hashHex session).2).scenarioCheckpoints
      (saveState hashHex session).1 = some session.scenarioState := by
    simp only [saveState, deepCopy]
    exact mapGet_mapSet_self session.scenarioCheckpoints
      (generateStateHash hashHex session.scenarioState) session.scenarioState
  unfold rollbackCommand
  rw [hget]
  exact ⟨rfl, rfl, hget⟩

/-- Claim C8: for every key absent from the checkpoint store, the rollback
command fails with NotFound and leaves the session — in particular the live
scenario state — completely untouched. -/
theorem rollback_absent_key_leaves_state (session : SessionData) (key : String)
    (habsent : mapGet session.scenarioCheckpoints key = none) :
    rollbackCommand session key = (RollbackOutcome.notFound, session) := by
  unfold rollbackCommand
  rw [habsent]

/-- Witness for C8 at a concrete input. -/
theorem rollback_absent_key_leaves_state_witness :
    mapGet (SessionData.mk (ScenarioState.mk true []) []).scenarioCheckpoints "00000000" = none ∧
    rollbackCommand (SessionData.mk (ScenarioState.mk true []) []) "00000000"
      = (RollbackOutcome.notFound, SessionData.mk (ScenarioState.mk true []) []) :=
  ⟨rfl,
   rollback_absent_key_leaves_state (SessionData.mk (ScenarioState.mk true []) []) "00000000" rfl⟩

end Grim
